import Mathlib

/-!
Verification of the git file-history command handlers
(`src/commandHandlers/fileCommit/fileHistory.ts`).

Each handler of `GitFileHistoryCommandHandler` is embedded as a pure
function from an environment (the external git service's predecessor
lookup and the file system's existence check) and the handler's input
to a `RunResult` recording, in source order, the snapshot fetches
(`gitService.getCommitFile` calls), the warning messages
(`applicationShell.showErrorMessage` calls), the single-file view
commands (`vscode.open` / `git.openFileInViewer`), and the diff
commands (`vscode.diff`) together with the inputs handed to the
private title formatter `getComparisonTitle`.
-/

namespace GitFileHistory

/-- A VS Code `Uri`; only its `path`/`fsPath` string is consulted by the
handlers, so the embedding keeps a single path field. -/
structure Uri where
  path : String
deriving DecidableEq, Repr

/-- A commit hash with its `full` form (used for lookups) and `short`
form (used for display), as in the repository's `Hash` type. -/
structure Hash where
  full : String
  short : String
deriving DecidableEq, Repr

/-- The `Status` change-status enumeration; the handlers only compare
against `Deleted` and `Added`, and the spec enumerates
Added/Modified/Deleted/Renamed. -/
inductive Status where
  | Added
  | Modified
  | Deleted
  | Renamed
deriving DecidableEq, Repr

/-- A committed file entry: current `uri`, the optional `oldUri`
recorded when the file was renamed, and its change `status`
(fields as dereferenced by the handlers). -/
structure CommittedFile where
  uri : Uri
  oldUri : Option Uri
  status : Status
deriving DecidableEq, Repr

/-- A log entry; the handlers only consult its `hash`. -/
structure LogEntry where
  hash : Hash
deriving DecidableEq, Repr

/-- A `FileCommitDetails` record, with the fields the handlers
dereference: `workspaceFolder`, `logEntry`, `committedFile`. -/
structure FileCommitDetails where
  workspaceFolder : String
  logEntry : LogEntry
  committedFile : CommittedFile
deriving DecidableEq, Repr

/-- The right-hand commit of a cross-revision comparison; the handler
only consults `rightCommit.logEntry.hash`. -/
structure CommitDetails where
  logEntry : LogEntry
deriving DecidableEq, Repr

/-- A `CompareFileCommitDetails`: a `FileCommitDetails` together with
the right-hand `rightCommit`. -/
structure CompareFileCommitDetails where
  workspaceFolder : String
  logEntry : LogEntry
  committedFile : CommittedFile
  rightCommit : CommitDetails
deriving DecidableEq, Repr

/-- The external collaborators the handlers call and branch on:
`gitService.getPreviousCommitHashForFile` and
`fileSystem.fileExistsAsync`.  `getCommitFile` needs no environment
entry: its result is a handle to the requested `(revision, file)`
snapshot and the handlers never branch on it, so fetched snapshots are
identified by their request below. -/
structure Env where
  prevHash : String → Uri → Hash
  fileExists : String → Bool

/-- A resource handed to a view or diff command: either a fetched
snapshot (identified by the full revision hash and file it was fetched
for, standing for the temporary file `getCommitFile` returns) or a
live on-disk workspace file. -/
inductive Resource where
  | tmp (rev : String) (file : Uri)
  | disk (path : String)
deriving DecidableEq, Repr

/-- A `vscode.diff` invocation: left resource, right resource, title. -/
structure DiffCall where
  left : Resource
  right : Resource
  title : String
deriving DecidableEq, Repr

/-- The observable outcome of one handler run: `getCommitFile` calls in
source order, `showErrorMessage` messages, single-file-view commands,
diff commands, and the (path, hash) pairs handed to the title
formatter when a two-sided comparison title is built. -/
structure RunResult where
  fetches : List (String × Uri)
  warnings : List String
  views : List Resource
  diffs : List DiffCall
  titleInputs : Option ((String × Hash) × (String × Hash))
deriving DecidableEq, Repr

/-- Node's `path.basename` as used on the handlers' slash-separated
paths: the portion of the path after the last `/`. -/
def baseName (p : String) : String :=
  String.mk (p.data.foldl (fun acc c => if c = '/' then [] else acc ++ [c]) [])

/-- The ternary `committedFile.oldUri ? committedFile.oldUri :
committedFile.uri` that resolves the path to use at the predecessor
revision (previous path when a rename is recorded, current path
otherwise), shared by `compareFileWithPrevious` and
`viewPreviousFile`. -/
def previousFileOf (cf : CommittedFile) : Uri :=
  match cf.oldUri with
  | some u => u
  | none => cf.uri

/-- `getComparisonTitle`: base names of the two sides; if equal,
`"<name> (<leftShort> ↔ <rightShort>)"`, else
`"<leftName> (<leftShort> ↔ <rightName> <rightShort>)"`. -/
def getComparisonTitle (left right : Uri × Hash) : String :=
  let leftFileName := baseName left.1.path
  let rightFileName := baseName right.1.path
  if leftFileName = rightFileName then
    leftFileName ++ " (" ++ left.2.short ++ " ↔ " ++ right.2.short ++ ")"
  else
    leftFileName ++ " (" ++ left.2.short ++ " ↔ " ++ rightFileName ++ " " ++ right.2.short ++ ")"

/-- `viewFile` on a resolved `FileCommitDetails`: Deleted shows an
error; otherwise one fetch at this revision and a
`git.openFileInViewer` of the fetched file. -/
def viewFileCore (_env : Env) (fc : FileCommitDetails) : RunResult :=
  if fc.committedFile.status = Status.Deleted then
    { fetches := [], warnings := ["File cannot be viewed as it was deleted"],
      views := [], diffs := [], titleInputs := none }
  else
    { fetches := [(fc.logEntry.hash.full, fc.committedFile.uri)],
      warnings := [],
      views := [Resource.tmp fc.logEntry.hash.full fc.committedFile.uri],
      diffs := [], titleInputs := none }

/-- `compareFileWithWorkspace` on a resolved `FileCommitDetails`:
Deleted and missing-workspace-file show errors; otherwise one fetch at
this revision and a diff of the fetched snapshot against the on-disk
workspace file, titled `"<name> (<short> ↔ Working File)"`. -/
def compareFileWithWorkspaceCore (env : Env) (fc : FileCommitDetails) : RunResult :=
  if fc.committedFile.status = Status.Deleted then
    { fetches := [], warnings := ["File cannot be compared with, as it was deleted"],
      views := [], diffs := [], titleInputs := none }
  else if env.fileExists fc.committedFile.uri.path = false then
    { fetches := [], warnings := ["Corresponding workspace file does not exist"],
      views := [], diffs := [], titleInputs := none }
  else
    { fetches := [(fc.logEntry.hash.full, fc.committedFile.uri)],
      warnings := [],
      views := [],
      diffs := [{ left := Resource.tmp fc.logEntry.hash.full fc.committedFile.uri,
                  right := Resource.disk fc.committedFile.uri.path,
                  title := baseName fc.committedFile.uri.path ++ " (" ++
                    fc.logEntry.hash.short ++ " ↔ Working File)" }],
      titleInputs := none }

/-- `compareFileWithPrevious` on a resolved `FileCommitDetails`:
Deleted fetches and opens the predecessor snapshot with a warning;
Added fetches and opens this revision's snapshot with a warning;
otherwise it fetches this revision's snapshot first (source line 94),
then the predecessor snapshot (line 103), and diffs predecessor-left
against current-right under `getComparisonTitle`. -/
def compareFileWithPreviousCore (env : Env) (fc : FileCommitDetails) : RunResult :=
  if fc.committedFile.status = Status.Deleted then
    let previousCommitHash := env.prevHash fc.logEntry.hash.full fc.committedFile.uri
    let previousFile := previousFileOf fc.committedFile
    { fetches := [(previousCommitHash.full, previousFile)],
      warnings := ["File cannot be compared with, as it was deleted. Showing deleted version."],
      views := [Resource.tmp previousCommitHash.full previousFile],
      diffs := [], titleInputs := none }
  else if fc.committedFile.status = Status.Added then
    { fetches := [(fc.logEntry.hash.full, fc.committedFile.uri)],
      warnings := ["File cannot be compared with previous, as this is a new file. Showing it."],
      views := [Resource.tmp fc.logEntry.hash.full fc.committedFile.uri],
      diffs := [], titleInputs := none }
  else
    let previousCommitHash := env.prevHash fc.logEntry.hash.full fc.committedFile.uri
    let previousFile := previousFileOf fc.committedFile
    { fetches := [(fc.logEntry.hash.full, fc.committedFile.uri),
                  (previousCommitHash.full, previousFile)],
      warnings := [],
      views := [],
      diffs := [{ left := Resource.tmp previousCommitHash.full previousFile,
                  right := Resource.tmp fc.logEntry.hash.full fc.committedFile.uri,
                  title := getComparisonTitle (⟨previousFile.path⟩, previousCommitHash)
                    (⟨fc.committedFile.uri.path⟩, fc.logEntry.hash) }],
      titleInputs := some ((previousFile.path, previousCommitHash),
                           (fc.committedFile.uri.path, fc.logEntry.hash)) }

/-- `viewPreviousFile` on a resolved `FileCommitDetails`: Added shows
an error; otherwise one fetch of the predecessor snapshot (previous
path when a rename is recorded) and a view of it. -/
def viewPreviousFileCore (env : Env) (fc : FileCommitDetails) : RunResult :=
  if fc.committedFile.status = Status.Added then
    { fetches := [],
      warnings := ["Previous version of the file cannot be opened, as this is a new file"],
      views := [], diffs := [], titleInputs := none }
  else
    let previousCommitHash := env.prevHash fc.logEntry.hash.full fc.committedFile.uri
    let previousFile := previousFileOf fc.committedFile
    { fetches := [(previousCommitHash.full, previousFile)],
      warnings := [],
      views := [Resource.tmp previousCommitHash.full previousFile],
      diffs := [], titleInputs := none }

/-- `compareFileAcrossCommits`: Deleted and Added show errors;
otherwise two fetches of the same file at the left and right commits
(left promise created first) and a diff under `getComparisonTitle`,
with the same current path on both title sides. -/
def compareFileAcrossCommitsCore (_env : Env) (fc : CompareFileCommitDetails) : RunResult :=
  if fc.committedFile.status = Status.Deleted then
    { fetches := [], warnings := ["File cannot be compared with, as it was deleted"],
      views := [], diffs := [], titleInputs := none }
  else if fc.committedFile.status = Status.Added then
    { fetches := [], warnings := ["File cannot be compared, as this is a new file"],
      views := [], diffs := [], titleInputs := none }
  else
    { fetches := [(fc.logEntry.hash.full, fc.committedFile.uri),
                  (fc.rightCommit.logEntry.hash.full, fc.committedFile.uri)],
      warnings := [],
      views := [],
      diffs := [{ left := Resource.tmp fc.logEntry.hash.full fc.committedFile.uri,
                  right := Resource.tmp fc.rightCommit.logEntry.hash.full fc.committedFile.uri,
                  title := getComparisonTitle (⟨fc.committedFile.uri.path⟩, fc.logEntry.hash)
                    (⟨fc.committedFile.uri.path⟩, fc.rightCommit.logEntry.hash) }],
      titleInputs := some ((fc.committedFile.uri.path, fc.logEntry.hash),
                           (fc.committedFile.uri.path, fc.rightCommit.logEntry.hash)) }

/-- The union argument `FileNode | FileCommitDetails` of the four
view/compare handlers: either a plain `FileCommitDetails`, or a tree
node whose `data` field may be `undefined`. -/
inductive NodeOrCommit where
  | commit (details : FileCommitDetails)
  | node (data : Option FileCommitDetails)
deriving DecidableEq, Repr

/-- The entry resolution `nodeOrFileCommit instanceof FileCommitDetails
? nodeOrFileCommit : nodeOrFileCommit.data!`.  The non-null assertion
does not check at runtime: an undefined `data` flows through as
`none`. -/
def resolveEntry : NodeOrCommit → Option FileCommitDetails
  | NodeOrCommit.commit d => some d
  | NodeOrCommit.node data => data

/-- `viewFile` on the union input.  When the entry resolves to
`undefined`, the very next dereference `fileCommit.workspaceFolder`
(before the status guard) throws, modelled as `none`: no fetch, no
message, no view. -/
def viewFileRun (env : Env) (x : NodeOrCommit) : Option RunResult :=
  (resolveEntry x).map (viewFileCore env)

/-- `compareFileWithWorkspace` on the union input; crash on an
unresolved entry as in `viewFileRun`. -/
def compareFileWithWorkspaceRun (env : Env) (x : NodeOrCommit) : Option RunResult :=
  (resolveEntry x).map (compareFileWithWorkspaceCore env)

/-- `compareFileWithPrevious` on the union input; crash on an
unresolved entry as in `viewFileRun`. -/
def compareFileWithPreviousRun (env : Env) (x : NodeOrCommit) : Option RunResult :=
  (resolveEntry x).map (compareFileWithPreviousCore env)

/-- `viewPreviousFile` on the union input; crash on an unresolved
entry as in `viewFileRun`. -/
def viewPreviousFileRun (env : Env) (x : NodeOrCommit) : Option RunResult :=
  (resolveEntry x).map (viewPreviousFileCore env)

/-- A user request: one of the five handler intents with its input. -/
inductive Request where
  | viewFile (fc : FileCommitDetails)
  | compareWithWorkspace (fc : FileCommitDetails)
  | compareWithPrevious (fc : FileCommitDetails)
  | viewPrevious (fc : FileCommitDetails)
  | compareAcross (fc : CompareFileCommitDetails)

/-- Dispatch a request to its handler. -/
def runRequest (env : Env) : Request → RunResult
  | Request.viewFile fc => viewFileCore env fc
  | Request.compareWithWorkspace fc => compareFileWithWorkspaceCore env fc
  | Request.compareWithPrevious fc => compareFileWithPreviousCore env fc
  | Request.viewPrevious fc => viewPreviousFileCore env fc
  | Request.compareAcross fc => compareFileAcrossCommitsCore env fc

/-- Number of presentation actions a run invokes: single-file views
plus diff views plus warning messages. -/
def actionCount (r : RunResult) : Nat :=
  r.views.length + r.diffs.length + r.warnings.length

/-- The degrade-to-view cases: a CompareWithPrevious request on a
Deleted or Added entry. -/
def degradedComparePrevious : Request → Prop
  | Request.compareWithPrevious fc =>
      fc.committedFile.status = Status.Deleted ∨ fc.committedFile.status = Status.Added
  | _ => False

/-- Concrete short/full hash pair for the spec's `deadbeef` commit. -/
def hashDead : Hash := ⟨"deadbeef", "dead"⟩

/-- Concrete short/full hash pair for the spec's `cafef00d` commit. -/
def hashCafe : Hash := ⟨"cafef00d", "cafe"⟩

/-- The file `x.py` of the spec's scenarios. -/
def uriXpy : Uri := ⟨"x.py"⟩

/-- An environment whose predecessor lookup yields `cafef00d` and
whose workspace files all exist. -/
def env0 : Env := ⟨fun _ _ => hashCafe, fun _ => true⟩

/-- An environment whose workspace existence check reports absence. -/
def envNoFile : Env := ⟨fun _ _ => hashCafe, fun _ => false⟩

/-- `x.py` modified at `deadbeef`, no rename recorded. -/
def fcModified : FileCommitDetails := ⟨"ws", ⟨hashDead⟩, ⟨uriXpy, none, Status.Modified⟩⟩

/-- `x.py` added at `deadbeef`. -/
def fcAdded : FileCommitDetails := ⟨"ws", ⟨hashDead⟩, ⟨uriXpy, none, Status.Added⟩⟩

/-- `x.py` deleted at `deadbeef`. -/
def fcDeleted : FileCommitDetails := ⟨"ws", ⟨hashDead⟩, ⟨uriXpy, none, Status.Deleted⟩⟩

/-- Cross-revision comparison input with Deleted status. -/
def cfcDeleted : CompareFileCommitDetails :=
  ⟨"ws", ⟨hashDead⟩, ⟨uriXpy, none, Status.Deleted⟩, ⟨⟨hashCafe⟩⟩⟩

/-- Cross-revision comparison input with Added status. -/
def cfcAdded : CompareFileCommitDetails :=
  ⟨"ws", ⟨hashDead⟩, ⟨uriXpy, none, Status.Added⟩, ⟨⟨hashCafe⟩⟩⟩

/-- Cross-revision comparison input with Modified status. -/
def cfcModified : CompareFileCommitDetails :=
  ⟨"ws", ⟨hashDead⟩, ⟨uriXpy, none, Status.Modified⟩, ⟨⟨hashCafe⟩⟩⟩

/-- C1: on a Deleted entry, ViewFile, CompareWithWorkspace and
CompareAcrossRevisions plan zero fetches with a non-empty warning,
while CompareWithPrevious still plans exactly one fetch — the
predecessor snapshot — with a non-fatal warning (the deleted version
is still shown). -/
theorem deleted_status_plans (env : Env) (fc : FileCommitDetails)
    (cfc : CompareFileCommitDetails)
    (h : fc.committedFile.status = Status.Deleted)
    (hc : cfc.committedFile.status = Status.Deleted) :
    (viewFileCore env fc).fetches = [] ∧ (viewFileCore env fc).warnings ≠ [] ∧
    (compareFileWithWorkspaceCore env fc).fetches = [] ∧
    (compareFileWithWorkspaceCore env fc).warnings ≠ [] ∧
    (compareFileAcrossCommitsCore env cfc).fetches = [] ∧
    (compareFileAcrossCommitsCore env cfc).warnings ≠ [] ∧
    (compareFileWithPreviousCore env fc).fetches =
      [((env.prevHash fc.logEntry.hash.full fc.committedFile.uri).full,
        previousFileOf fc.committedFile)] ∧
    (compareFileWithPreviousCore env fc).warnings ≠ [] ∧
    (compareFileWithPreviousCore env fc).views ≠ [] := by
  simp [viewFileCore, compareFileWithWorkspaceCore, compareFileAcrossCommitsCore,
    compareFileWithPreviousCore, h, hc]

/-- Witness for `deleted_status_plans` at the deleted `x.py` entry. -/
theorem deleted_status_plans_witness :
    fcDeleted.committedFile.status = Status.Deleted ∧
    (compareFileWithPreviousCore env0 fcDeleted).fetches = [("cafef00d", uriXpy)] :=
  ⟨by decide,
   (deleted_status_plans env0 fcDeleted cfcDeleted (by decide) (by decide)).2.2.2.2.2.2.1⟩

/-- C2 counterexample: in the modified `x.py` scenario the fetch
requests are issued this-revision first (`deadbeef`, line 94 of the
source) and predecessor second (`cafef00d`, line 103), not
predecessor first as claimed. -/
theorem comparePrevious_fetch_order_counterexample :
    (compareFileWithPreviousCore env0 fcModified).fetches ≠
      [(("cafef00d" : String), uriXpy), (("deadbeef" : String), uriXpy)] := by decide

/-- C2 (amended): on a CompareWithPrevious request that is neither
Deleted nor Added, the plan has exactly two fetches ordered
this-revision snapshot first then predecessor snapshot (previous path
when a rename is recorded, else current path), no warning, and
titleInputs pairs (previous path at predecessor revision) left with
(current path at this revision) right; the diff's title comes from
`getComparisonTitle` on exactly those inputs. -/
theorem comparePrevious_modified_plan (env : Env) (fc : FileCommitDetails)
    (hd : fc.committedFile.status ≠ Status.Deleted)
    (ha : fc.committedFile.status ≠ Status.Added) :
    (compareFileWithPreviousCore env fc).fetches =
      [(fc.logEntry.hash.full, fc.committedFile.uri),
       ((env.prevHash fc.logEntry.hash.full fc.committedFile.uri).full,
        previousFileOf fc.committedFile)] ∧
    (compareFileWithPreviousCore env fc).warnings = [] ∧
    (compareFileWithPreviousCore env fc).titleInputs =
      some (((previousFileOf fc.committedFile).path,
             env.prevHash fc.logEntry.hash.full fc.committedFile.uri),
            (fc.committedFile.uri.path, fc.logEntry.hash)) ∧
    (compareFileWithPreviousCore env fc).diffs =
      [⟨Resource.tmp (env.prevHash fc.logEntry.hash.full fc.committedFile.uri).full
          (previousFileOf fc.committedFile),
        Resource.tmp fc.logEntry.hash.full fc.committedFile.uri,
        getComparisonTitle
          (⟨(previousFileOf fc.committedFile).path⟩,
           env.prevHash fc.logEntry.hash.full fc.committedFile.uri)
          (⟨fc.committedFile.uri.path⟩, fc.logEntry.hash)⟩] := by
  simp [compareFileWithPreviousCore, hd, ha]

/-- Witness for `comparePrevious_modified_plan`: the modified `x.py`
scenario fetches (`deadbeef`,`x.py`) then (`cafef00d`,`x.py`) with no
warning, and its diff title evaluates to `"x.py (cafe ↔ dead)"`. -/
theorem comparePrevious_modified_plan_witness :
    (compareFileWithPreviousCore env0 fcModified).fetches =
      [("deadbeef", uriXpy), ("cafef00d", uriXpy)] ∧
    (compareFileWithPreviousCore env0 fcModified).warnings = [] ∧
    (compareFileWithPreviousCore env0 fcModified).diffs.map DiffCall.title =
      ["x.py (cafe ↔ dead)"] :=
  ⟨(comparePrevious_modified_plan env0 fcModified (by decide) (by decide)).1,
   (comparePrevious_modified_plan env0 fcModified (by decide) (by decide)).2.1,
   by decide⟩

/-- C3: on a CompareWithPrevious request with Added status, the plan is
exactly one fetch at this revision, the non-fatal new-file warning, and
a single-file view of the fetched snapshot in place of a diff. -/
theorem comparePrevious_added_plan (env : Env) (fc : FileCommitDetails)
    (h : fc.committedFile.status = Status.Added) :
    compareFileWithPreviousCore env fc =
      { fetches := [(fc.logEntry.hash.full, fc.committedFile.uri)],
        warnings := ["File cannot be compared with previous, as this is a new file. Showing it."],
        views := [Resource.tmp fc.logEntry.hash.full fc.committedFile.uri],
        diffs := [], titleInputs := none } := by
  simp [compareFileWithPreviousCore, h]

/-- Witness for `comparePrevious_added_plan` at the added `x.py`. -/
theorem comparePrevious_added_plan_witness :
    fcAdded.committedFile.status = Status.Added ∧
    compareFileWithPreviousCore env0 fcAdded =
      { fetches := [("deadbeef", uriXpy)],
        warnings := ["File cannot be compared with previous, as this is a new file. Showing it."],
        views := [Resource.tmp "deadbeef" uriXpy],
        diffs := [], titleInputs := none } :=
  ⟨by decide, comparePrevious_added_plan env0 fcAdded (by decide)⟩

/-- C4: on a CompareWithWorkspace request that is not Deleted: if the
existence check reports the on-disk file absent, zero fetches and the
missing-workspace-file warning; otherwise exactly one fetch at this
revision, diffed against the live workspace file (a disk resource,
not a fetched snapshot). -/
theorem compareWorkspace_plan (env : Env) (fc : FileCommitDetails)
    (h : fc.committedFile.status ≠ Status.Deleted) :
    (env.fileExists fc.committedFile.uri.path = false →
      (compareFileWithWorkspaceCore env fc).fetches = [] ∧
      (compareFileWithWorkspaceCore env fc).warnings =
        ["Corresponding workspace file does not exist"]) ∧
    (env.fileExists fc.committedFile.uri.path = true →
      (compareFileWithWorkspaceCore env fc).fetches =
        [(fc.logEntry.hash.full, fc.committedFile.uri)] ∧
      (compareFileWithWorkspaceCore env fc).warnings = [] ∧
      (compareFileWithWorkspaceCore env fc).diffs =
        [⟨Resource.tmp fc.logEntry.hash.full fc.committedFile.uri,
          Resource.disk fc.committedFile.uri.path,
          baseName fc.committedFile.uri.path ++ " (" ++
            fc.logEntry.hash.short ++ " ↔ Working File)"⟩]) := by
  constructor <;> intro hx <;> simp [compareFileWithWorkspaceCore, h, hx]

/-- Witness for `compareWorkspace_plan`: both the absent-workspace-file
branch and the existing-file branch at the modified `x.py`. -/
theorem compareWorkspace_plan_witness :
    ((compareFileWithWorkspaceCore envNoFile fcModified).warnings =
      ["Corresponding workspace file does not exist"]) ∧
    ((compareFileWithWorkspaceCore env0 fcModified).fetches = [("deadbeef", uriXpy)]) :=
  ⟨((compareWorkspace_plan envNoFile fcModified (by decide)).1 (by decide)).2,
   ((compareWorkspace_plan env0 fcModified (by decide)).2 (by decide)).1⟩

/-- C5: on a ViewPrevious request: Added yields zero fetches and the
cannot-open-new-file warning; any other status yields exactly one
fetch at the predecessor revision, at the recorded previous path when
a rename is recorded and the current path otherwise. -/
theorem viewPrevious_plan (env : Env) (fc : FileCommitDetails) :
    (fc.committedFile.status = Status.Added →
      viewPreviousFileCore env fc =
        { fetches := [],
          warnings := ["Previous version of the file cannot be opened, as this is a new file"],
          views := [], diffs := [], titleInputs := none }) ∧
    (fc.committedFile.status ≠ Status.Added →
      (viewPreviousFileCore env fc).fetches =
        [((env.prevHash fc.logEntry.hash.full fc.committedFile.uri).full,
          previousFileOf fc.committedFile)] ∧
      (viewPreviousFileCore env fc).warnings = []) := by
  constructor <;> intro hx <;> simp [viewPreviousFileCore, hx]

/-- Witness for `viewPrevious_plan`: the Added branch at added `x.py`
and the predecessor fetch at modified `x.py`. -/
theorem viewPrevious_plan_witness :
    (viewPreviousFileCore env0 fcAdded).warnings =
      ["Previous version of the file cannot be opened, as this is a new file"] ∧
    (viewPreviousFileCore env0 fcModified).fetches = [("cafef00d", uriXpy)] :=
  ⟨by rw [(viewPrevious_plan env0 fcAdded).1 (by decide)],
   ((viewPrevious_plan env0 fcModified).2 (by decide)).1⟩

/-- C6: on a CompareAcrossRevisions request: Deleted yields exactly the
warning "File cannot be compared with, as it was deleted" and no
fetches; Added yields zero fetches and the new-file warning; otherwise
the plan is two fetches of the same current path at the left and right
revisions, with titleInputs pairing that single path with the left and
right revisions respectively. -/
theorem compareAcross_plan (env : Env) (cfc : CompareFileCommitDetails) :
    (cfc.committedFile.status = Status.Deleted →
      (compareFileAcrossCommitsCore env cfc).warnings =
        ["File cannot be compared with, as it was deleted"] ∧
      (compareFileAcrossCommitsCore env cfc).fetches = []) ∧
    (cfc.committedFile.status = Status.Added →
      (compareFileAcrossCommitsCore env cfc).fetches = [] ∧
      (compareFileAcrossCommitsCore env cfc).warnings =
        ["File cannot be compared, as this is a new file"]) ∧
    (cfc.committedFile.status ≠ Status.Deleted →
      cfc.committedFile.status ≠ Status.Added →
      (compareFileAcrossCommitsCore env cfc).fetches =
        [(cfc.logEntry.hash.full, cfc.committedFile.uri),
         (cfc.rightCommit.logEntry.hash.full, cfc.committedFile.uri)] ∧
      (compareFileAcrossCommitsCore env cfc).titleInputs =
        some ((cfc.committedFile.uri.path, cfc.logEntry.hash),
              (cfc.committedFile.uri.path, cfc.rightCommit.logEntry.hash))) := by
  refine ⟨fun h => ?_, fun h => ?_, fun h1 h2 => ?_⟩ <;>
    simp_all [compareFileAcrossCommitsCore]

/-- Witness for `compareAcross_plan`: all three branches at concrete
deleted, added and modified cross-revision inputs. -/
theorem compareAcross_plan_witness :
    (compareFileAcrossCommitsCore env0 cfcDeleted).warnings =
      ["File cannot be compared with, as it was deleted"] ∧
    (compareFileAcrossCommitsCore env0 cfcAdded).fetches = [] ∧
    (compareFileAcrossCommitsCore env0 cfcModified).fetches =
      [("deadbeef", uriXpy), ("cafef00d", uriXpy)] :=
  ⟨((compareAcross_plan env0 cfcDeleted).1 (by decide)).1,
   ((compareAcross_plan env0 cfcAdded).2.1 (by decide)).1,
   ((compareAcross_plan env0 cfcModified).2.2 (by decide) (by decide)).1⟩

/-- C7: for every pair of (path, revision) inputs, the title formatter
produces `"<name> (<leftShort> ↔ <rightShort>)"` when the base names
coincide and `"<leftName> (<leftShort> ↔ <rightName> <rightShort>)"`
when they differ — only the right side repeats its name. -/
theorem title_format (L R : Uri × Hash) :
    (baseName L.1.path = baseName R.1.path →
      getComparisonTitle L R =
        baseName L.1.path ++ " (" ++ L.2.short ++ " ↔ " ++ R.2.short ++ ")") ∧
    (baseName L.1.path ≠ baseName R.1.path →
      getComparisonTitle L R =
        baseName L.1.path ++ " (" ++ L.2.short ++ " ↔ " ++
          baseName R.1.path ++ " " ++ R.2.short ++ ")") := by
  constructor <;> intro h <;> simp [getComparisonTitle, h]

/-- Witness for `title_format`: the spec's same-name and renamed
examples, evaluated to their concrete strings. -/
theorem title_format_witness :
    getComparisonTitle (⟨"a/b.txt"⟩, hashDead) (⟨"c/b.txt"⟩, hashCafe) =
      "b.txt (dead ↔ cafe)" ∧
    getComparisonTitle (⟨"a/old.txt"⟩, hashCafe) (⟨"c/new.txt"⟩, hashDead) =
      "old.txt (cafe ↔ new.txt dead)" :=
  ⟨by rw [(title_format (⟨"a/b.txt"⟩, hashDead) (⟨"c/b.txt"⟩, hashCafe)).1 (by decide)]; decide,
   by rw [(title_format (⟨"a/old.txt"⟩, hashCafe) (⟨"c/new.txt"⟩, hashDead)).2 (by decide)]; decide⟩

/-- C8 counterexample: two distinct inputs — same base name `b.txt`,
same short hash, different directories and full hashes — whose title
is unchanged when the arguments are swapped, so swapping does not
change the output for every pair. -/
theorem title_swap_counterexample :
    ((⟨"a/b.txt"⟩, ⟨"h1full", "h1"⟩) : Uri × Hash) ≠ (⟨"c/b.txt"⟩, ⟨"h2full", "h1"⟩) ∧
    getComparisonTitle (⟨"a/b.txt"⟩, ⟨"h1full", "h1"⟩) (⟨"c/b.txt"⟩, ⟨"h2full", "h1"⟩) =
      getComparisonTitle (⟨"c/b.txt"⟩, ⟨"h2full", "h1"⟩) (⟨"a/b.txt"⟩, ⟨"h1full", "h1"⟩) := by
  constructor
  · decide
  · decide

/-- C8 (amended): the title formatter is deterministic and total —
repeated calls on the same pair agree — and it is not commutative:
there exist pairs whose output changes when the arguments are
swapped. -/
theorem title_deterministic_not_commutative :
    (∀ L R : Uri × Hash, getComparisonTitle L R = getComparisonTitle L R) ∧
    (∃ L R : Uri × Hash, getComparisonTitle L R ≠ getComparisonTitle R L) :=
  ⟨fun _ _ => rfl, ⟨(⟨"x.py"⟩, hashCafe), (⟨"x.py"⟩, hashDead), by decide⟩⟩

/-- C9 counterexample: a CompareWithPrevious request on an Added entry
invokes both a single-file view and a warning message, so it is not
the case that exactly one presentation action is invoked per
request. -/
theorem presentation_both_view_and_warning :
    (runRequest env0 (Request.compareWithPrevious fcAdded)).views.length = 1 ∧
    (runRequest env0 (Request.compareWithPrevious fcAdded)).warnings.length = 1 := by
  decide

/-- C9 (amended): every request invokes exactly one presentation
action — single-file view, diff view, or warning — except the
degrade-to-view cases (CompareWithPrevious on a Deleted or Added
entry), which invoke exactly one single-file view together with
exactly one warning and no diff. -/
theorem presentation_action_policy (env : Env) (r : Request) :
    actionCount (runRequest env r) = 1 ∨
    (degradedComparePrevious r ∧
      (runRequest env r).views.length = 1 ∧
      (runRequest env r).warnings.length = 1 ∧
      (runRequest env r).diffs = []) := by
  cases r with
  | viewFile fc =>
    left
    by_cases h : fc.committedFile.status = Status.Deleted <;>
      simp [runRequest, viewFileCore, actionCount, h]
  | compareWithWorkspace fc =>
    left
    by_cases h : fc.committedFile.status = Status.Deleted
    · simp [runRequest, compareFileWithWorkspaceCore, actionCount, h]
    · by_cases he : env.fileExists fc.committedFile.uri.path <;>
        simp [runRequest, compareFileWithWorkspaceCore, actionCount, h, he]
  | compareWithPrevious fc =>
    by_cases h1 : fc.committedFile.status = Status.Deleted
    · exact Or.inr ⟨Or.inl h1,
        by simp [runRequest, compareFileWithPreviousCore, h1]⟩
    · by_cases h2 : fc.committedFile.status = Status.Added
      · exact Or.inr ⟨Or.inr h2,
          by simp [runRequest, compareFileWithPreviousCore, h1, h2]⟩
      · exact Or.inl (by simp [runRequest, compareFileWithPreviousCore, actionCount, h1, h2])
  | viewPrevious fc =>
    left
    by_cases h : fc.committedFile.status = Status.Added <;>
      simp [runRequest, viewPreviousFileCore, actionCount, h]
  | compareAcross fc =>
    left
    by_cases h1 : fc.committedFile.status = Status.Deleted
    · simp [runRequest, compareFileAcrossCommitsCore, actionCount, h1]
    · by_cases h2 : fc.committedFile.status = Status.Added <;>
        simp [runRequest, compareFileAcrossCommitsCore, actionCount, h1, h2]

/-- C10: each of the four union-typed handlers dereferences the node's
`data` field, and on a `FileNode` whose `data` is undefined the run
crashes before any status guard is reached — no fetch, no warning, no
view is produced, for every environment and regardless of any status. -/
theorem fileNode_missing_data_crashes (env : Env) :
    viewFileRun env (NodeOrCommit.node none) = none ∧
    compareFileWithWorkspaceRun env (NodeOrCommit.node none) = none ∧
    compareFileWithPreviousRun env (NodeOrCommit.node none) = none ∧
    viewPreviousFileRun env (NodeOrCommit.node none) = none ∧
    (∀ d, viewFileRun env (NodeOrCommit.node (some d)) = some (viewFileCore env d)) ∧
    (∀ d, compareFileWithWorkspaceRun env (NodeOrCommit.node (some d)) =
      some (compareFileWithWorkspaceCore env d)) ∧
    (∀ d, compareFileWithPreviousRun env (NodeOrCommit.node (some d)) =
      some (compareFileWithPreviousCore env d)) ∧
    (∀ d, viewPreviousFileRun env (NodeOrCommit.node (some d)) =
      some (viewPreviousFileCore env d)) :=
  ⟨rfl, rfl, rfl, rfl, fun _ => rfl, fun _ => rfl, fun _ => rfl, fun _ => rfl⟩

end GitFileHistory
